import Mathlib

/-!
Verification development for the portfolio single-page scroll application
(`script.js`).  The document state relevant to section activation is embedded
shallowly: sections carry their `active` class, `aria-hidden` attribute and the
reveal-target children; nav links carry their `href` target and `aria-current`
state.  Geometry (bounding boxes, scroll offsets) is embedded with rational
coordinates.  Fallible browser facilities (localStorage) are embedded with
`Except`.
-/

namespace Portfolio

/-- The animation-role class carried by a reveal target, one of the four
selectors `.animate-slide-in, .animate-fade-in, .reveal, .glow-in` used by
`setActiveSection` (the IntersectionObserver callback only queries the first
three). -/
inductive TargetClass where
  | slideIn
  | fadeIn
  | reveal
  | glowIn
deriving DecidableEq, Repr

/-- A reveal-target element inside a section: its class, whether it currently
has the `is-visible` class, and its inline `style.transitionDelay`
(`some d` = the inline style `d`ms, `none` = the cleared inline style `''`). -/
structure RevealTarget where
  cls : TargetClass
  isVisible : Bool
  transitionDelay : Option Nat
deriving DecidableEq, Repr

/-- A `.section` element: its `id`, whether it has the `active` class, its
`aria-hidden` attribute, and its reveal targets in document order. -/
structure Section where
  id : String
  active : Bool
  ariaHidden : Bool
  revealTargets : List RevealTarget
deriving DecidableEq, Repr

/-- A `.nav-link` element: `target` is its `href` with the leading `#`
stripped (`link.getAttribute('href').slice(1)`), `ariaCurrent` records whether
`aria-current="page"` is set. -/
structure NavLink where
  target : String
  ariaCurrent : Bool
deriving DecidableEq, Repr

/-- The document state that the section-activation logic reads and writes:
the `.section` elements in document order, the `.nav-link` elements, and the
ids of any other (non-section) elements, which `document.getElementById` can
also find. -/
structure Doc where
  sections : List Section
  navLinks : List NavLink
  otherIds : List String
deriving DecidableEq, Repr

/-- Embeds `Array.prototype.findIndex`, with `none` standing for the sentinel `-1`. -/
def findIndex {α : Type} (p : α → Bool) : List α → Option Nat
  | [] => none
  | x :: xs => if p x then some 0 else (findIndex p xs).map (· + 1)

/-- Embeds `document.getElementById(id)` viewed as a presence test: the empty string
matches no element; otherwise an element is found when some section or some
other element carries the id. -/
def getElementById (d : Doc) (id : String) : Bool :=
  if id == "" then false
  else d.sections.any (fun s => s.id == id) || d.otherIds.contains id

/-- The add-phase of `setActiveSection`’s target loop (`targets.forEach((el, i)
=> { el.style.transitionDelay = i*70+'ms'; el.classList.add('is-visible') })`),
carrying the running index of the `forEach`. -/
def revealAll : Nat → List RevealTarget → List RevealTarget
  | _, [] => []
  | i, t :: ts =>
      { t with isVisible := true, transitionDelay := some (i * 70) } :: revealAll (i + 1) ts

/-- The clear-phase run on non-active sections: every target that currently
has `is-visible` (the selector `.animate-slide-in.is-visible, …`) loses it and
has its inline transition delay reset to `''`. -/
def clearReveal (ts : List RevealTarget) : List RevealTarget :=
  ts.map (fun t =>
    if t.isVisible then { t with isVisible := false, transitionDelay := none } else t)

/-- The per-section body of `setActiveSection`’s `sections.forEach`: toggle
`active` on `s.id === id`, set `aria-hidden` to the negation, run the
add-phase on all reveal targets, and on non-active sections run the
clear-phase afterwards. -/
def applySection (id : String) (s : Section) : Section :=
  let isActive := s.id == id
  let targets := revealAll 0 s.revealTargets
  let targets := if isActive then targets else clearReveal targets
  { s with active := isActive, ariaHidden := !isActive, revealTargets := targets }

/-- Embeds `sections[activeIndex]` for `activeIndex = sections.findIndex(s =>
s.classList.contains('active'))`: the first section carrying `active`. -/
def activeSectionOf (l : List Section) : Option Section :=
  (findIndex (fun s => s.active) l).bind (fun i => l.get? i)

/-- The per-link body of `updateNavCurrent`’s loop: set
`aria-current="page"` exactly when the link’s target equals the first active
section’s id, remove it otherwise (also when no section is active,
`sections[-1]` being `undefined`). -/
def assignCurrent (activeSection : Option Section) (l : NavLink) : NavLink :=
  match activeSection with
  | some s => if l.target == s.id then { l with ariaCurrent := true }
              else { l with ariaCurrent := false }
  | none => { l with ariaCurrent := false }

/-- Embeds `updateNavCurrent()` (note: the source sometimes passes an argument, but
the function declares no parameter, so the argument is ignored). -/
def updateNavCurrent (d : Doc) : Doc :=
  { d with navLinks := d.navLinks.map (assignCurrent (activeSectionOf d.sections)) }

/-- Embeds `setActiveSection(id)`: run the per-section body over every section, then
`updateNavCurrent()`. -/
def setActiveSection (d : Doc) (id : String) : Doc :=
  updateNavCurrent { d with sections := d.sections.map (applySection id) }

/-- Embeds `navigateToSection(id)`: `document.getElementById(id)` absent → return
with no state change; otherwise smooth-scroll and focus (no document state),
then `setActiveSection(id)`. -/
def navigateToSection (d : Doc) (id : String) : Doc :=
  if getElementById d id then setActiveSection d id else d

/-- Embeds `getActiveIndex()`: `findIndex` with its `-1` sentinel. -/
def getActiveIndex (d : Doc) : Int :=
  match findIndex (fun s => s.active) d.sections with
  | some i => (i : Int)
  | none => -1

/-- Embeds `goToNextSection()`: when `idx < sections.length - 1`, navigate to
`sections[idx + 1].id`. -/
def goToNextSection (d : Doc) : Doc :=
  let idx := getActiveIndex d
  if idx < (d.sections.length : Int) - 1 then
    match d.sections.get? (idx + 1).toNat with
    | some s => navigateToSection d s.id
    | none => d
  else d

/-- Embeds `goToPrevSection()`: when `idx > 0`, navigate to `sections[idx - 1].id`. -/
def goToPrevSection (d : Doc) : Doc :=
  let idx := getActiveIndex d
  if idx > 0 then
    match d.sections.get? (idx - 1).toNat with
    | some s => navigateToSection d s.id
    | none => d
  else d

/-- The number of sections currently carrying the `active` class. -/
def countActive (d : Doc) : Nat :=
  (d.sections.filter (fun s => s.active)).length

/-! ### IntersectionObserver callback (initSectionObserver) -/

/-- One entry of an IntersectionObserver callback batch: the observed
section’s position in document order and its `intersectionRatio`. -/
structure ObserverEntry where
  index : Nat
  intersectionRatio : ℚ
deriving DecidableEq, Repr

/-- Replace the element at position `i` (out of range: unchanged). -/
def modifyAt {α : Type} : List α → Nat → (α → α) → List α
  | [], _, _ => []
  | x :: xs, 0, f => f x :: xs
  | x :: xs, i + 1, f => x :: modifyAt xs i f

/-- The `intersectionRatio > 0.5` branch of the observer callback: add
`active` to the entry’s section and add `is-visible` to its
`.animate-slide-in, .animate-fade-in, .reveal` targets (this selector list
omits `.glow-in` and sets no stagger delay). -/
def observerActivate (s : Section) : Section :=
  { s with
    active := true
    revealTargets := s.revealTargets.map (fun t =>
      if t.cls = TargetClass.glowIn then t else { t with isVisible := true }) }

/-- The per-entry body of the observer callback: ratio above one half →
activate the section and `updateNavCurrent(section.id)` (argument ignored by
the zero-parameter function); otherwise remove the section’s `active` class. -/
def applyObserverEntry (d : Doc) (e : ObserverEntry) : Doc :=
  match d.sections.get? e.index with
  | none => d
  | some _ =>
      if e.intersectionRatio > mkRat 1 2 then
        updateNavCurrent { d with sections := modifyAt d.sections e.index observerActivate }
      else
        { d with sections := modifyAt d.sections e.index (fun s => { s with active := false }) }

/-- One IntersectionObserver callback invocation over a batch of entries
(`entries.forEach`). -/
def observerCallback (d : Doc) (entries : List ObserverEntry) : Doc :=
  entries.foldl applyObserverEntry d

/-! ### Geometry: chooseClosestSection and indexFromScroll -/

/-- The geometry of a `.section` as seen by `getBoundingClientRect()`:
`rectTop` and `rectHeight` in viewport coordinates. -/
structure SectionGeom where
  id : String
  rectTop : ℚ
  rectHeight : ℚ
deriving DecidableEq, Repr

/-- Tests `dist < minDist` where `minDist` starts at `Infinity` (`none`). -/
def ltInf (d : ℚ) : Option ℚ → Bool
  | none => true
  | some m => decide (d < m)

/-- The running-minimum loop shared by `chooseClosestSection` and
`indexFromScroll`: `if (dist < minDist) { minDist = dist; closest = x; }`,
with the accumulator holding `(closest, minDist)`. -/
def runMin {α : Type} (f : α → ℚ) (l : List α) (acc : α × Option ℚ) : α × Option ℚ :=
  l.foldl (fun acc x =>
    let d := f x
    if ltInf d acc.2 then (x, some d) else acc) acc

/-- Embeds `Math.abs(rect.top + rect.height / 2 - window.innerHeight / 2)`: the
distance from a section’s bounding-box center to the viewport midpoint. -/
def sectionDist (innerHeight : ℚ) (s : SectionGeom) : ℚ :=
  |s.rectTop + s.rectHeight / 2 - innerHeight / 2|

/-- Embeds `chooseClosestSection()`: `null` on an empty section list; otherwise the
running minimum initialized with `closest = sections[0]`, `minDist =
Infinity` over the whole list. -/
def chooseClosestSection (innerHeight : ℚ) : List SectionGeom → Option SectionGeom
  | [] => none
  | s0 :: rest => some ((runMin (sectionDist innerHeight) (s0 :: rest) (s0, none)).1)

/-- The geometry of a `.project-card` inside the carousel: `offsetLeft` and
`offsetWidth`. -/
structure CardGeom where
  offsetLeft : ℚ
  offsetWidth : ℚ
deriving DecidableEq, Repr

/-- Embeds `Math.abs(card.offsetLeft + card.offsetWidth / 2 - center)`. -/
def cardDist (center : ℚ) (c : CardGeom) : ℚ :=
  |c.offsetLeft + c.offsetWidth / 2 - center|

/-- The `cards.forEach((card, i) => …)` loop of `indexFromScroll`, carrying
the `forEach` index and the `(closest, minDist)` accumulator. -/
def indexLoop (center : ℚ) : Nat → Nat × Option ℚ → List CardGeom → Nat × Option ℚ
  | _, acc, [] => acc
  | i, acc, c :: cs =>
      let d := cardDist center c
      indexLoop center (i + 1) (if ltInf d acc.2 then (i, some d) else acc) cs

/-- Embeds `indexFromScroll()`: the card index closest to
`carousel.scrollLeft + carousel.clientWidth / 2`, starting from
`closest = 0`, `minDist = Infinity`. -/
def indexFromScroll (scrollLeft clientWidth : ℚ) (cards : List CardGeom) : Nat :=
  let center := scrollLeft + clientWidth / 2
  (indexLoop center 0 (0, none) cards).1

/-! ### Theme -/

/-- The `#theme-toggle` button’s pieces touched by `updateThemeButton`:
its `aria-pressed` attribute and the text of its `.toggle-text` and
`.toggle-icon` children. -/
structure ThemeButton where
  ariaPressed : String
  toggleText : String
  toggleIcon : String
deriving DecidableEq, Repr

/-- The state the Theme object reads and writes: the document element’s
`data-theme` attribute (`none` = attribute absent), the value stored under
the `jz-theme` key in localStorage, whether localStorage operations throw
(e.g. a storage security error), and the optional theme-toggle button. -/
structure ThemeDoc where
  dataTheme : Option String
  storedTheme : Option String
  storageFails : Bool
  themeButton : Option ThemeButton
deriving DecidableEq, Repr

/-- Embeds `localStorage.getItem('jz-theme')`: throws when storage is unavailable,
otherwise returns the stored value (or `null`). -/
def getItemResult (d : ThemeDoc) : Except String (Option String) :=
  if d.storageFails then Except.error "storage access throws" else Except.ok d.storedTheme

/-- Embeds `localStorage.setItem('jz-theme', v)`: throws when storage is
unavailable, otherwise yields the new stored value. -/
def setItemResult (d : ThemeDoc) (v : String) : Except String (Option String) :=
  if d.storageFails then Except.error "storage access throws" else Except.ok (some v)

/-- Embeds `updateThemeButton(theme)`: absent button → return; otherwise set
`aria-pressed` to `String(theme === 'dark')` and the text/icon accordingly
(`theme` may be a string or the `null` from `getAttribute`). -/
def updateThemeButton (theme : Option String) (d : ThemeDoc) : ThemeDoc :=
  match d.themeButton with
  | none => d
  | some _ =>
      let b : ThemeButton :=
        { ariaPressed := if theme = some "dark" then "true" else "false"
          toggleText := if theme = some "dark" then "Dark" else "Light"
          toggleIcon := if theme = some "dark" then "moon" else "sun" }
      { d with themeButton := some b }

/-- The effective displayed theme, as computed by `Theme.toggle`’s first
line: `getAttribute('data-theme') === 'light' ? 'light' : 'dark'`. -/
def displayedTheme (d : ThemeDoc) : String :=
  if d.dataTheme = some "light" then "light" else "dark"

namespace Theme

/-- Embeds `Theme.toggle()`: flip the displayed theme, set the `data-theme`
attribute, persist under `try { localStorage.setItem(…) } catch(e){}` (the
throw is swallowed, leaving the stored value unchanged), and update the
button. -/
def toggle (d : ThemeDoc) : ThemeDoc :=
  let cur := if d.dataTheme = some "light" then "light" else "dark"
  let next := if cur = "light" then "dark" else "light"
  let d1 : ThemeDoc := { d with dataTheme := some next }
  let d2 : ThemeDoc :=
    match setItemResult d1 next with
    | Except.ok v => { d1 with storedTheme := v }
    | Except.error _ => d1
  updateThemeButton (some next) d2

/-- Embeds `Theme.init()`: read the saved preference — this `localStorage.getItem`
call is NOT wrapped in try/catch, so a throwing storage read propagates out
of `init` — then, if a value was saved, set `data-theme` to it, and update
the button with the current attribute value. -/
def init (d : ThemeDoc) : Except String ThemeDoc :=
  match getItemResult d with
  | Except.error e => Except.error e
  | Except.ok saved =>
      let d1 : ThemeDoc :=
        match saved with
        | some v => { d with dataTheme := some v }
        | none => d
      Except.ok (updateThemeButton d1.dataTheme d1)

end Theme

/-! ### Contact form -/

/-- The state of the contact form: the three field values, the text of the
three `{fieldId}-error` slots, and the `#form-status` text. -/
structure FormState where
  nameValue : String
  emailValue : String
  messageValue : String
  nameError : String
  emailError : String
  messageError : String
  statusText : String
deriving DecidableEq, Repr

/-- The submit handler installed by `initForm` in `script.js` (lines
227–243).  Its body was overwritten by a splice of carousel
center-calculation code: the first statement reads the free variable
`carousel`, which is bound neither in `initForm`’s scope nor globally, so
every dispatch of the handler throws a ReferenceError before touching any
form state; the validation helpers `setError`/`isEmailValid` defined just
above it are never called, `e.preventDefault()` is never invoked, and the
success branch after `return closest` is unreachable. -/
def formSubmitHandler (_st : FormState) : Except String FormState :=
  Except.error "ReferenceError: carousel is not defined"

/-! ### Project carousel -/

/-- An `.indicator` element (its `active` class). -/
structure Indicator where
  active : Bool
deriving DecidableEq, Repr

/-- A `.project-card` element (its `active-slide` class). -/
structure ProjectCard where
  activeSlide : Bool
deriving DecidableEq, Repr

/-- The carousel-related document state: whether
`document.querySelector('.project-carousel')` finds the container, the cards
inside it, and the indicators. -/
structure CarouselDoc where
  carouselPresent : Bool
  cards : List ProjectCard
  indicators : List Indicator
deriving DecidableEq, Repr

/-- The synchronous effect of `initProjectCarousel()`: `if (!carousel)
return;` leaves everything untouched; otherwise listeners are registered
(no document state) and, with `currentIndex = 0`, `updateIndicators(0)` and
the initial `active-slide` toggle run. -/
def initProjectCarousel (c : CarouselDoc) : CarouselDoc :=
  if !c.carouselPresent then c
  else
    { c with
      indicators := (List.range c.indicators.length).zip c.indicators |>.map
        (fun p => { p.2 with active := p.1 == 0 })
      cards := (List.range c.cards.length).zip c.cards |>.map
        (fun p => { p.2 with activeSlide := p.1 == 0 }) }

/-- A small concrete document with two sections, matching nav links, and one
non-section element id, used to instantiate the claims. -/
def sampleDoc : Doc :=
  { sections :=
      [⟨"home", false, false, [⟨TargetClass.reveal, false, none⟩, ⟨TargetClass.fadeIn, false, none⟩]⟩,
       ⟨"about", false, true, [⟨TargetClass.glowIn, false, none⟩]⟩],
    navLinks := [⟨"home", false⟩, ⟨"about", false⟩],
    otherIds := ["year"] }

/-! ## Lemmas about the running-minimum loops -/

theorem runMin_nil {α : Type} (f : α → ℚ) (acc : α × Option ℚ) :
    runMin f [] acc = acc := rfl

theorem runMin_cons {α : Type} (f : α → ℚ) (x : α) (xs : List α) (acc : α × Option ℚ) :
    runMin f (x :: xs) acc
      = runMin f xs (if ltInf (f x) acc.2 then (x, some (f x)) else acc) := rfl

/-- Invariant of the `if (dist < minDist)` loop: starting from a candidate
`a` with recorded distance `f a`, the loop either keeps `a` (no strictly
smaller distance in the remaining list) or ends at the first list element
strictly improving on `a`, which is a global minimizer. -/
theorem runMin_go {α : Type} (f : α → ℚ) :
    ∀ (l : List α) (a : α),
      (runMin f l (a, some (f a)) = (a, some (f a)) ∧ ∀ x ∈ l, f a ≤ f x)
      ∨ (∃ i b, l.get? i = some b ∧ runMin f l (a, some (f a)) = (b, some (f b)) ∧
          f b < f a ∧ (∀ x ∈ l, f b ≤ f x) ∧
          (∀ j y, j < i → l.get? j = some y → f b < f y)) := by
  intro l
  induction l with
  | nil =>
    intro a
    exact Or.inl ⟨rfl, by simp⟩
  | cons x xs ih =>
    intro a
    rw [runMin_cons]
    by_cases hx : f x < f a
    · rw [if_pos (by simp [ltInf, hx])]
      rcases ih x with ⟨heq, hmin⟩ | ⟨i, b, hget, heq, hlt, hmin, hfirst⟩
      · refine Or.inr ⟨0, x, rfl, heq, hx, ?_, ?_⟩
        · intro y hy
          rcases List.mem_cons.mp hy with h1 | h1
          · subst h1; exact le_rfl
          · exact hmin y h1
        · intro j y hj _
          omega
      · refine Or.inr ⟨i + 1, b, by simpa using hget, heq, lt_trans hlt hx, ?_, ?_⟩
        · intro y hy
          rcases List.mem_cons.mp hy with h1 | h1
          · subst h1; exact le_of_lt hlt
          · exact hmin y h1
        · intro j y hj hgety
          cases j with
          | zero =>
            simp only [List.get?_cons_zero, Option.some.injEq] at hgety
            subst hgety
            exact hlt
          | succ j2 =>
            simp only [List.get?_cons_succ] at hgety
            exact hfirst j2 y (by omega) hgety
    · rw [if_neg (by simp [ltInf, hx])]
      have hax : f a ≤ f x := not_lt.mp hx
      rcases ih a with ⟨heq, hmin⟩ | ⟨i, b, hget, heq, hlt, hmin, hfirst⟩
      · refine Or.inl ⟨heq, ?_⟩
        intro y hy
        rcases List.mem_cons.mp hy with h1 | h1
        · subst h1; exact hax
        · exact hmin y h1
      · refine Or.inr ⟨i + 1, b, by simpa using hget, heq, hlt, ?_, ?_⟩
        · intro y hy
          rcases List.mem_cons.mp hy with h1 | h1
          · subst h1; exact le_of_lt (lt_of_lt_of_le hlt hax)
          · exact hmin y h1
        · intro j y hj hgety
          cases j with
          | zero =>
            simp only [List.get?_cons_zero, Option.some.injEq] at hgety
            subst hgety
            exact lt_of_lt_of_le hlt hax
          | succ j2 =>
            simp only [List.get?_cons_succ] at hgety
            exact hfirst j2 y (by omega) hgety

/-- The function `chooseClosestSection` returns the first section whose center realizes
the minimal distance to the viewport midpoint. -/
theorem chooseClosestSection_spec (innerHeight : ℚ) (sections : List SectionGeom)
    (h : sections ≠ []) :
    ∃ i s, sections.get? i = some s ∧
      chooseClosestSection innerHeight sections = some s ∧
      (∀ t ∈ sections, sectionDist innerHeight s ≤ sectionDist innerHeight t) ∧
      (∀ j t, j < i → sections.get? j = some t →
        sectionDist innerHeight s < sectionDist innerHeight t) := by
  match sections, h with
  | s0 :: rest, _ =>
    have hstart : runMin (sectionDist innerHeight) (s0 :: rest) (s0, none)
        = runMin (sectionDist innerHeight) rest (s0, some (sectionDist innerHeight s0)) := by
      rw [runMin_cons]; simp [ltInf]
    rcases runMin_go (sectionDist innerHeight) rest s0 with
      ⟨heq, hmin⟩ | ⟨i, b, hget, heq, hlt, hmin, hfirst⟩
    · refine ⟨0, s0, rfl, ?_, ?_, ?_⟩
      · simp [chooseClosestSection, hstart, heq]
      · intro t ht
        rcases List.mem_cons.mp ht with h1 | h1
        · subst h1; exact le_rfl
        · exact hmin t h1
      · intro j t hj _
        omega
    · refine ⟨i + 1, b, by simpa using hget, ?_, ?_, ?_⟩
      · simp [chooseClosestSection, hstart, heq]
      · intro t ht
        rcases List.mem_cons.mp ht with h1 | h1
        · subst h1; exact le_of_lt hlt
        · exact hmin t h1
      · intro j t hj hgett
        cases j with
        | zero =>
          simp only [List.get?_cons_zero, Option.some.injEq] at hgett
          subst hgett
          exact hlt
        | succ j2 =>
          simp only [List.get?_cons_succ] at hgett
          exact hfirst j2 t (by omega) hgett

theorem indexLoop_cons (center : ℚ) (i k : Nat) (m : Option ℚ) (c : CardGeom)
    (cs : List CardGeom) :
    indexLoop center i (k, m) (c :: cs)
      = indexLoop center (i + 1)
          (if ltInf (cardDist center c) m then (i, some (cardDist center c)) else (k, m)) cs := rfl

/-- Invariant of `indexFromScroll`’s `cards.forEach((card, i) => …)` loop,
analogous to `runMin_go` but tracking the `forEach` index. -/
theorem indexLoop_go (center : ℚ) :
    ∀ (l : List CardGeom) (i0 k : Nat) (m : ℚ),
      (indexLoop center i0 (k, some m) l = (k, some m) ∧ ∀ x ∈ l, m ≤ cardDist center x)
      ∨ (∃ j c, l.get? j = some c ∧
          indexLoop center i0 (k, some m) l = (i0 + j, some (cardDist center c)) ∧
          cardDist center c < m ∧ (∀ x ∈ l, cardDist center c ≤ cardDist center x) ∧
          (∀ r y, r < j → l.get? r = some y → cardDist center c < cardDist center y)) := by
  intro l
  induction l with
  | nil =>
    intro i0 k m
    exact Or.inl ⟨rfl, by simp⟩
  | cons c cs ih =>
    intro i0 k m
    rw [indexLoop_cons]
    by_cases hc : cardDist center c < m
    · rw [if_pos (by simp [ltInf, hc])]
      rcases ih (i0 + 1) i0 (cardDist center c) with
        ⟨heq, hmin⟩ | ⟨j2, c2, hget, heq, hlt, hmin, hfirst⟩
      · refine Or.inr ⟨0, c, rfl, by simpa using heq, hc, ?_, ?_⟩
        · intro y hy
          rcases List.mem_cons.mp hy with h1 | h1
          · subst h1; exact le_rfl
          · exact hmin y h1
        · intro r y hr _
          omega
      · refine Or.inr ⟨j2 + 1, c2, by simpa using hget, ?_, lt_trans hlt hc, ?_, ?_⟩
        · have harith : i0 + 1 + j2 = i0 + (j2 + 1) := by omega
          rw [heq, harith]
        · intro y hy
          rcases List.mem_cons.mp hy with h1 | h1
          · subst h1; exact le_of_lt hlt
          · exact hmin y h1
        · intro r y hr hgety
          cases r with
          | zero =>
            simp only [List.get?_cons_zero, Option.some.injEq] at hgety
            subst hgety
            exact hlt
          | succ r2 =>
            simp only [List.get?_cons_succ] at hgety
            exact hfirst r2 y (by omega) hgety
    · rw [if_neg (by simp [ltInf, hc])]
      have hmc : m ≤ cardDist center c := not_lt.mp hc
      rcases ih (i0 + 1) k m with
        ⟨heq, hmin⟩ | ⟨j2, c2, hget, heq, hlt, hmin, hfirst⟩
      · refine Or.inl ⟨heq, ?_⟩
        intro y hy
        rcases List.mem_cons.mp hy with h1 | h1
        · subst h1; exact hmc
        · exact hmin y h1
      · refine Or.inr ⟨j2 + 1, c2, by simpa using hget, ?_, hlt, ?_, ?_⟩
        · have harith : i0 + 1 + j2 = i0 + (j2 + 1) := by omega
          rw [heq, harith]
        · intro y hy
          rcases List.mem_cons.mp hy with h1 | h1
          · subst h1; exact le_of_lt (lt_of_lt_of_le hlt hmc)
          · exact hmin y h1
        · intro r y hr hgety
          cases r with
          | zero =>
            simp only [List.get?_cons_zero, Option.some.injEq] at hgety
            subst hgety
            exact lt_of_lt_of_le hlt hmc
          | succ r2 =>
            simp only [List.get?_cons_succ] at hgety
            exact hfirst r2 y (by omega) hgety

/-- The function `indexFromScroll` returns the first index realizing the minimal distance
from card center to carousel center. -/
theorem indexFromScroll_spec (scrollLeft clientWidth : ℚ) (cards : List CardGeom)
    (h : cards ≠ []) :
    ∃ k c, cards.get? k = some c ∧
      indexFromScroll scrollLeft clientWidth cards = k ∧
      (∀ e ∈ cards, cardDist (scrollLeft + clientWidth / 2) c
        ≤ cardDist (scrollLeft + clientWidth / 2) e) ∧
      (∀ j e, j < k → cards.get? j = some e →
        cardDist (scrollLeft + clientWidth / 2) c
          < cardDist (scrollLeft + clientWidth / 2) e) := by
  match cards, h with
  | c0 :: rest, _ =>
    have hstart : indexFromScroll scrollLeft clientWidth (c0 :: rest)
        = (indexLoop (scrollLeft + clientWidth / 2) 1
            (0, some (cardDist (scrollLeft + clientWidth / 2) c0)) rest).1 := by
      show (indexLoop (scrollLeft + clientWidth / 2) 0 (0, none) (c0 :: rest)).1 = _
      rw [indexLoop_cons]
      simp [ltInf]
    rcases indexLoop_go (scrollLeft + clientWidth / 2) rest 1 0
        (cardDist (scrollLeft + clientWidth / 2) c0) with
      ⟨heq, hmin⟩ | ⟨j, c, hget, heq, hlt, hmin, hfirst⟩
    · refine ⟨0, c0, rfl, ?_, ?_, ?_⟩
      · rw [hstart, heq]
      · intro e he
        rcases List.mem_cons.mp he with h1 | h1
        · subst h1; exact le_rfl
        · exact hmin e h1
      · intro j e hj _
        omega
    · refine ⟨j + 1, c, by simpa using hget, ?_, ?_, ?_⟩
      · rw [hstart, heq]
        omega
      · intro e he
        rcases List.mem_cons.mp he with h1 | h1
        · subst h1; exact le_of_lt hlt
        · exact hmin e h1
      · intro r e hr hgete
        cases r with
        | zero =>
          simp only [List.get?_cons_zero, Option.some.injEq] at hgete
          subst hgete
          exact hlt
        | succ r2 =>
          simp only [List.get?_cons_succ] at hgete
          exact hfirst r2 e (by omega) hgete

end Portfolio

namespace Portfolio

/-! ## Claim C3 -/

/-- C3: for every non-empty element list and reference point, the
nearest-element resolution (`chooseClosestSection` against the viewport
midpoint, `indexFromScroll` against the carousel center) returns the
element/index minimizing the absolute distance from element center to the
reference point; repeated calls with unchanged geometry return the same
result; ties resolve to the earliest element in document order, because the
running minimum only updates on strictly smaller distance. -/
theorem C3_nearest_resolution (innerHeight scrollLeft clientWidth : ℚ)
    (sections : List SectionGeom) (cards : List CardGeom)
    (hs : sections ≠ []) (hc : cards ≠ []) :
    (∃ i s, sections.get? i = some s ∧
      chooseClosestSection innerHeight sections = some s ∧
      (∀ t ∈ sections, sectionDist innerHeight s ≤ sectionDist innerHeight t) ∧
      (∀ j t, j < i → sections.get? j = some t →
        sectionDist innerHeight s < sectionDist innerHeight t) ∧
      chooseClosestSection innerHeight sections = chooseClosestSection innerHeight sections)
    ∧ (∃ k c, cards.get? k = some c ∧
      indexFromScroll scrollLeft clientWidth cards = k ∧
      (∀ e ∈ cards, cardDist (scrollLeft + clientWidth / 2) c
        ≤ cardDist (scrollLeft + clientWidth / 2) e) ∧
      (∀ j e, j < k → cards.get? j = some e →
        cardDist (scrollLeft + clientWidth / 2) c
          < cardDist (scrollLeft + clientWidth / 2) e) ∧
      indexFromScroll scrollLeft clientWidth cards
        = indexFromScroll scrollLeft clientWidth cards) := by
  constructor
  · rcases chooseClosestSection_spec innerHeight sections hs with ⟨i, s, h1, h2, h3, h4⟩
    exact ⟨i, s, h1, h2, h3, h4, rfl⟩
  · rcases indexFromScroll_spec scrollLeft clientWidth cards hc with ⟨k, c, h1, h2, h3, h4⟩
    exact ⟨k, c, h1, h2, h3, h4, rfl⟩

/-- Witness for C3 at a concrete two-section, two-card geometry. -/
theorem C3_nearest_resolution_witness :
    ([(⟨"a", 0, 4⟩ : SectionGeom), ⟨"b", 3, 4⟩] ≠ ([] : List SectionGeom))
    ∧ ([(⟨0, 4⟩ : CardGeom), ⟨4, 4⟩] ≠ ([] : List CardGeom))
    ∧ ((∃ i s, ([(⟨"a", 0, 4⟩ : SectionGeom), ⟨"b", 3, 4⟩].get? i = some s) ∧
        chooseClosestSection 10 [⟨"a", 0, 4⟩, ⟨"b", 3, 4⟩] = some s ∧
        (∀ t ∈ [(⟨"a", 0, 4⟩ : SectionGeom), ⟨"b", 3, 4⟩],
          sectionDist 10 s ≤ sectionDist 10 t) ∧
        (∀ j t, j < i → [(⟨"a", 0, 4⟩ : SectionGeom), ⟨"b", 3, 4⟩].get? j = some t →
          sectionDist 10 s < sectionDist 10 t) ∧
        chooseClosestSection 10 [⟨"a", 0, 4⟩, ⟨"b", 3, 4⟩]
          = chooseClosestSection 10 [⟨"a", 0, 4⟩, ⟨"b", 3, 4⟩])
      ∧ (∃ k c, ([(⟨0, 4⟩ : CardGeom), ⟨4, 4⟩].get? k = some c) ∧
        indexFromScroll 0 10 [⟨0, 4⟩, ⟨4, 4⟩] = k ∧
        (∀ e ∈ [(⟨0, 4⟩ : CardGeom), ⟨4, 4⟩],
          cardDist (0 + 10 / 2) c ≤ cardDist (0 + 10 / 2) e) ∧
        (∀ j e, j < k → [(⟨0, 4⟩ : CardGeom), ⟨4, 4⟩].get? j = some e →
          cardDist (0 + 10 / 2) c < cardDist (0 + 10 / 2) e) ∧
        indexFromScroll 0 10 [⟨0, 4⟩, ⟨4, 4⟩] = indexFromScroll 0 10 [⟨0, 4⟩, ⟨4, 4⟩])) :=
  ⟨by simp, by simp,
    C3_nearest_resolution 10 0 10 [⟨"a", 0, 4⟩, ⟨"b", 3, 4⟩] [⟨0, 4⟩, ⟨4, 4⟩]
      (by simp) (by simp)⟩

end Portfolio

namespace Portfolio

/-! ## Lemmas about setActiveSection -/

theorem applySection_active (id : String) (s : Section) :
    (applySection id s).active = (s.id == id) := rfl

theorem applySection_id (id : String) (s : Section) :
    (applySection id s).id = s.id := rfl

theorem applySection_ariaHidden (id : String) (s : Section) :
    (applySection id s).ariaHidden = !(s.id == id) := rfl

theorem setActiveSection_sections (d : Doc) (id : String) :
    (setActiveSection d id).sections = d.sections.map (applySection id) := rfl

theorem setActiveSection_eq (d : Doc) (id : String) :
    setActiveSection d id =
      ⟨d.sections.map (applySection id),
       d.navLinks.map (assignCurrent (activeSectionOf (d.sections.map (applySection id)))),
       d.otherIds⟩ := rfl

/-- When some section matches the requested id, `updateNavCurrent` run after
the activation pass finds a first active section, and its id is the
requested id. -/
theorem activeSectionOf_map_applySection (id : String) :
    ∀ (l : List Section), (∃ s ∈ l, s.id = id) →
      ∃ s0, activeSectionOf (l.map (applySection id)) = some s0 ∧ s0.id = id := by
  intro l
  induction l with
  | nil =>
    intro h
    simp at h
  | cons s rest ih =>
    intro h
    by_cases hsid : s.id = id
    · refine ⟨applySection id s, ?_, by rw [applySection_id]; exact hsid⟩
      have hb : ((applySection id s).active) = true := by
        rw [applySection_active]; simp [hsid]
      simp [activeSectionOf, findIndex, hb]
    · have hmem2 : ∃ t ∈ rest, t.id = id := by
        rcases h with ⟨t, ht, htid⟩
        rcases List.mem_cons.mp ht with h1 | h1
        · subst h1; exact absurd htid hsid
        · exact ⟨t, h1, htid⟩
      rcases ih hmem2 with ⟨s0, hs0, hs0id⟩
      refine ⟨s0, ?_, hs0id⟩
      have hb : ((applySection id s).active) = false := by
        rw [applySection_active]; simp [hsid]
      rw [activeSectionOf] at hs0 ⊢
      simp only [List.map_cons, findIndex, hb, Bool.false_eq_true, if_false]
      cases hfi : findIndex (fun s => s.active) (rest.map (applySection id)) with
      | none => rw [hfi] at hs0; cases hs0
      | some j =>
        rw [hfi] at hs0
        simpa using hs0

theorem revealAll_get? (ts : List RevealTarget) :
    ∀ (i k : Nat), (revealAll i ts).get? k
      = (ts.get? k).map (fun t =>
          { t with isVisible := true, transitionDelay := some ((i + k) * 70) }) := by
  induction ts with
  | nil =>
    intro i k
    simp [revealAll]
  | cons t ts ih =>
    intro i k
    cases k with
    | zero => simp [revealAll]
    | succ k2 =>
      have harith : i + 1 + k2 = i + (k2 + 1) := by omega
      show (revealAll (i + 1) ts).get? k2 = _
      rw [ih (i + 1) k2, harith]
      simp

theorem clearReveal_get? (ts : List RevealTarget) (k : Nat) :
    (clearReveal ts).get? k
      = (ts.get? k).map (fun t =>
          if t.isVisible then { t with isVisible := false, transitionDelay := none } else t) := by
  rw [clearReveal, List.get?_map]

/-- The net per-position effect of the target loops of `setActiveSection`:
on the activated section every target becomes visible with its stagger
delay; on every other section every target ends invisible with the delay
cleared. -/
theorem applySection_revealTargets_get? (id : String) (s : Section) (i : Nat)
    (t : RevealTarget) (ht : s.revealTargets.get? i = some t) :
    (applySection id s).revealTargets.get? i
      = some (if s.id == id
          then { t with isVisible := true, transitionDelay := some (i * 70) }
          else { t with isVisible := false, transitionDelay := none }) := by
  have hunfold : (applySection id s).revealTargets
      = if s.id == id then revealAll 0 s.revealTargets
        else clearReveal (revealAll 0 s.revealTargets) := rfl
  rw [hunfold]
  by_cases hb : (s.id == id) = true
  · rw [if_pos hb, hb, revealAll_get?, ht]
    simp
  · rw [if_neg hb, clearReveal_get?, revealAll_get?, ht]
    simp only [Bool.not_eq_true] at hb
    rw [hb]
    simp

/-- In a list of sections with pairwise distinct ids, exactly one section
matches a present id. -/
theorem countP_id_eq_one (id : String) :
    ∀ (l : List Section), (l.map Section.id).Nodup → (∃ s ∈ l, s.id = id) →
      l.countP (fun s => s.id == id) = 1 := by
  intro l
  induction l with
  | nil =>
    intro _ h
    simp at h
  | cons s rest ih =>
    intro hnodup hmem
    rw [List.countP_cons]
    have hpair : s.id ∉ rest.map Section.id ∧ (rest.map Section.id).Nodup := by
      rw [List.map_cons, List.nodup_cons] at hnodup
      exact hnodup
    by_cases hsid : s.id = id
    · have hzero : rest.countP (fun s => s.id == id) = 0 := by
        rw [List.countP_eq_zero]
        intro u hu
        simp only [beq_iff_eq]
        intro huid
        exact hpair.1 (by
          rw [hsid, ← huid]
          exact List.mem_map_of_mem Section.id hu)
      simp [hzero, hsid]
    · have hmem2 : ∃ u ∈ rest, u.id = id := by
        rcases hmem with ⟨u, hu, huid⟩
        rcases List.mem_cons.mp hu with h1 | h1
        · subst h1; exact absurd huid hsid
        · exact ⟨u, h1, huid⟩
      simp [ih hpair.2 hmem2, hsid]

/-- After `setActiveSection(id)` with `id` present and section ids distinct,
exactly one section carries the `active` class. -/
theorem countActive_setActiveSection (d : Doc) (id : String)
    (hnodup : (d.sections.map Section.id).Nodup)
    (hmem : ∃ s ∈ d.sections, s.id = id) :
    countActive (setActiveSection d id) = 1 := by
  show ((d.sections.map (applySection id)).filter (fun s => s.active)).length = 1
  rw [← List.countP_eq_length_filter, List.countP_map]
  have hfun : ((fun s => s.active) ∘ applySection id) = (fun s => s.id == id) := rfl
  rw [hfun]
  exact countP_id_eq_one id d.sections hnodup hmem

/-! ## Claim C1 -/

/-- C1 (counterexample): the load-time bootstrap `setActiveSection(first.id)`
establishes exactly one active section, but a single IntersectionObserver
callback reporting the active section at `intersectionRatio = 0` (a state
reachable whenever the user scrolls the active section out of view, before
the 120ms scroll-settle timer fires) removes its `active` class, leaving
zero active sections: the observer callback is a second writer of the
`active` flag, so the exactly-one-active invariant does not hold in every
reachable state. -/
theorem C1_single_active_counterexample :
    countActive (setActiveSection sampleDoc "home") = 1
    ∧ countActive (observerCallback (setActiveSection sampleDoc "home") [⟨0, 0⟩]) = 0 := by
  constructor
  · decide
  · decide

/-- C1 (amended): after initialization, and after every navigation request or
scroll-settle resolution — each of which funnels into `setActiveSection` with
the id of an existing section — exactly one section is active, provided
section ids are pairwise distinct; the invariant is enforced anew by each
such call regardless of the previous state, but it is not preserved by
intersection-observer callbacks. -/
theorem C1_single_active_amended (d : Doc) (id : String)
    (hnodup : (d.sections.map Section.id).Nodup)
    (hmem : ∃ s ∈ d.sections, s.id = id) :
    countActive (setActiveSection d id) = 1 :=
  countActive_setActiveSection d id hnodup hmem

/-- Witness for the amended C1 at the concrete sample document. -/
theorem C1_single_active_amended_witness :
    (sampleDoc.sections.map Section.id).Nodup
    ∧ (∃ s ∈ sampleDoc.sections, s.id = "home")
    ∧ countActive (setActiveSection sampleDoc "home") = 1 :=
  ⟨by decide, by decide, C1_single_active_amended sampleDoc "home" (by decide) (by decide)⟩

/-! ## Claim C10 -/

/-- C10: for an id matching no section, `setActiveSection(id)` marks every
section inactive with `aria-hidden="true"`, leaving zero active sections,
rather than aborting or preserving the previously active section. -/
theorem C10_unmatched_id_deactivates_all (d : Doc) (id : String)
    (h : ∀ s ∈ d.sections, s.id ≠ id) :
    (∀ s2 ∈ (setActiveSection d id).sections, s2.active = false ∧ s2.ariaHidden = true)
    ∧ countActive (setActiveSection d id) = 0 := by
  constructor
  · intro s2 hs2
    rw [setActiveSection_sections] at hs2
    rcases List.mem_map.mp hs2 with ⟨s, hs, rfl⟩
    have hb : (s.id == id) = false := by simpa using h s hs
    refine ⟨?_, ?_⟩
    · rw [applySection_active, hb]
    · rw [applySection_ariaHidden, hb]
      rfl
  · show ((d.sections.map (applySection id)).filter (fun s => s.active)).length = 0
    rw [← List.countP_eq_length_filter, List.countP_map]
    have hfun : ((fun s => s.active) ∘ applySection id) = (fun s => s.id == id) := rfl
    rw [hfun, List.countP_eq_zero]
    intro s hs
    simpa using h s hs

/-- Witness for C10: activating a non-existent id on the sample document. -/
theorem C10_unmatched_id_deactivates_all_witness :
    (∀ s ∈ sampleDoc.sections, s.id ≠ "missing")
    ∧ ((∀ s2 ∈ (setActiveSection sampleDoc "missing").sections,
        s2.active = false ∧ s2.ariaHidden = true)
      ∧ countActive (setActiveSection sampleDoc "missing") = 0) :=
  ⟨by decide, C10_unmatched_id_deactivates_all sampleDoc "missing" (by decide)⟩

/-! ## Claim C6 -/

/-- C6: a navigation request whose id matches no element returns without
changing any document state, and `initProjectCarousel` with the carousel
container absent returns without effect; both embeddings are total
functions, so no exception propagates and the rest of the system keeps
running. -/
theorem C6_missing_element_silent :
    (∀ (d : Doc) (id : String), getElementById d id = false → navigateToSection d id = d)
    ∧ (∀ c : CarouselDoc, c.carouselPresent = false → initProjectCarousel c = c) := by
  constructor
  · intro d id h
    simp [navigateToSection, h]
  · intro c h
    simp [initProjectCarousel, h]

/-- Witness for C6: a missing section id and a missing carousel container. -/
theorem C6_missing_element_silent_witness :
    (getElementById sampleDoc "missing" = false
      ∧ navigateToSection sampleDoc "missing" = sampleDoc)
    ∧ (CarouselDoc.carouselPresent ⟨false, [⟨true⟩], [⟨false⟩]⟩ = false
      ∧ initProjectCarousel ⟨false, [⟨true⟩], [⟨false⟩]⟩ = ⟨false, [⟨true⟩], [⟨false⟩]⟩) :=
  ⟨⟨by decide, C6_missing_element_silent.1 sampleDoc "missing" (by decide)⟩,
   ⟨rfl, C6_missing_element_silent.2 ⟨false, [⟨true⟩], [⟨false⟩]⟩ rfl⟩⟩

/-! ## Claim C5 -/

/-- C5: evaluating the form submit handler of `script.js` at the claimed
scenario (empty name, otherwise valid fields) does not set the inline name
error or the status message — it throws a ReferenceError before touching
any form state, because the handler body was overwritten by spliced
carousel code referencing the unbound variable `carousel`. -/
theorem C5_submit_handler_throws :
    formSubmitHandler
      { nameValue := "", emailValue := "user@example.com", messageValue := "hello",
        nameError := "", emailError := "", messageError := "", statusText := "" }
      = Except.error "ReferenceError: carousel is not defined" := rfl

theorem setActiveSection_navLinks (d : Doc) (id : String) :
    (setActiveSection d id).navLinks
      = d.navLinks.map
          (assignCurrent (activeSectionOf (d.sections.map (applySection id)))) := rfl

/-! ## Claim C2 -/

/-- C2: for every id matching an existing section, after
`setActiveSection(id)` the matching section has the `active` class and
`aria-hidden="false"` and its `i`-th reveal target carries transition delay
`i * 70` ms and the visibility flag; every other section loses the `active`
class, gets `aria-hidden="true"`, and its reveal targets lose the
visibility flag and their stagger delay; and a nav link carries
`aria-current="page"` exactly when its href target equals the requested
(active) id. -/
theorem C2_setActiveSection_effect (d : Doc) (id : String)
    (hmem : ∃ s ∈ d.sections, s.id = id) :
    (∀ k s, d.sections.get? k = some s → s.id = id →
      ∃ s2, (setActiveSection d id).sections.get? k = some s2 ∧
        s2.active = true ∧ s2.ariaHidden = false ∧
        ∀ i t, s.revealTargets.get? i = some t →
          s2.revealTargets.get? i
            = some { t with isVisible := true, transitionDelay := some (i * 70) })
    ∧ (∀ k s, d.sections.get? k = some s → s.id ≠ id →
      ∃ s2, (setActiveSection d id).sections.get? k = some s2 ∧
        s2.active = false ∧ s2.ariaHidden = true ∧
        ∀ i t, s.revealTargets.get? i = some t →
          s2.revealTargets.get? i
            = some { t with isVisible := false, transitionDelay := none })
    ∧ (∀ k l, d.navLinks.get? k = some l →
      (setActiveSection d id).navLinks.get? k
        = some { l with ariaCurrent := (l.target == id) }) := by
  refine ⟨?_, ?_, ?_⟩
  · intro k s hk hsid
    refine ⟨applySection id s, ?_, ?_, ?_, ?_⟩
    · rw [setActiveSection_sections, List.get?_map, hk]
      rfl
    · rw [applySection_active]
      simp [hsid]
    · rw [applySection_ariaHidden]
      simp [hsid]
    · intro i t ht
      rw [applySection_revealTargets_get? id s i t ht]
      simp [hsid]
  · intro k s hk hsid
    refine ⟨applySection id s, ?_, ?_, ?_, ?_⟩
    · rw [setActiveSection_sections, List.get?_map, hk]
      rfl
    · rw [applySection_active]
      simp [hsid]
    · rw [applySection_ariaHidden]
      simp [hsid]
    · intro i t ht
      rw [applySection_revealTargets_get? id s i t ht]
      have hb : (s.id == id) = false := by simpa using hsid
      rw [hb]
      simp
  · intro k l hk
    rcases activeSectionOf_map_applySection id d.sections hmem with ⟨s0, hs0, hs0id⟩
    rw [setActiveSection_navLinks, List.get?_map, hk]
    simp only [Option.map_some']
    have hass : assignCurrent (activeSectionOf (d.sections.map (applySection id))) l
        = { l with ariaCurrent := (l.target == id) } := by
      rw [hs0]
      simp only [assignCurrent]
      rw [hs0id]
      by_cases hb : (l.target == id) = true
      · rw [if_pos hb, hb]
      · rw [if_neg (by simp [hb])]
        simp only [Bool.not_eq_true] at hb
        rw [hb]
    rw [hass]

/-- Witness for C2: activating "about" on the sample document. -/
theorem C2_setActiveSection_effect_witness :
    (∃ s ∈ sampleDoc.sections, s.id = "about")
    ∧ ((∀ k s, sampleDoc.sections.get? k = some s → s.id = "about" →
        ∃ s2, (setActiveSection sampleDoc "about").sections.get? k = some s2 ∧
          s2.active = true ∧ s2.ariaHidden = false ∧
          ∀ i t, s.revealTargets.get? i = some t →
            s2.revealTargets.get? i
              = some { t with isVisible := true, transitionDelay := some (i * 70) })
      ∧ (∀ k s, sampleDoc.sections.get? k = some s → s.id ≠ "about" →
        ∃ s2, (setActiveSection sampleDoc "about").sections.get? k = some s2 ∧
          s2.active = false ∧ s2.ariaHidden = true ∧
          ∀ i t, s.revealTargets.get? i = some t →
            s2.revealTargets.get? i
              = some { t with isVisible := false, transitionDelay := none })
      ∧ (∀ k l, sampleDoc.navLinks.get? k = some l →
        (setActiveSection sampleDoc "about").navLinks.get? k
          = some { l with ariaCurrent := (l.target == "about") })) :=
  ⟨by decide, C2_setActiveSection_effect sampleDoc "about" (by decide)⟩

/-! ## Claim C4 -/

theorem revealAll_revealAll (ts : List RevealTarget) :
    ∀ i, revealAll i (revealAll i ts) = revealAll i ts := by
  induction ts with
  | nil =>
    intro i
    rfl
  | cons t ts ih =>
    intro i
    simp [revealAll, ih (i + 1)]

theorem revealAll_clearReveal (ts : List RevealTarget) :
    ∀ i, revealAll i (clearReveal ts) = revealAll i ts := by
  induction ts with
  | nil =>
    intro i
    rfl
  | cons t ts ih =>
    intro i
    have ih2 := ih (i + 1)
    simp only [clearReveal, List.map_cons] at ih2 ⊢
    cases hv : t.isVisible <;> simp [revealAll, hv, ih2]

/-- The per-section pass of `setActiveSection` is idempotent: its output depends
only on the section’s id and the underlying target skeleton, both of which
it preserves. -/
theorem applySection_idem (id : String) (s : Section) :
    applySection id (applySection id s) = applySection id s := by
  have hunfold : ∀ u : Section, applySection id u
      = { u with
          active := (u.id == id)
          ariaHidden := !(u.id == id)
          revealTargets :=
            if u.id == id then revealAll 0 u.revealTargets
            else clearReveal (revealAll 0 u.revealTargets) } := fun u => rfl
  rw [hunfold s, hunfold]
  by_cases hb : (s.id == id) = true
  · simp [hb, revealAll_revealAll]
  · simp only [Bool.not_eq_true] at hb
    simp [hb, revealAll_clearReveal, revealAll_revealAll]

theorem assignCurrent_idem (a : Option Section) (l : NavLink) :
    assignCurrent a (assignCurrent a l) = assignCurrent a l := by
  cases a with
  | none => rfl
  | some s =>
    simp only [assignCurrent]
    by_cases hb : (l.target == s.id) = true
    · rw [if_pos hb]
      rw [if_pos hb]
    · rw [if_neg (by simp [hb])]
      rw [if_neg (by simp [hb])]

/-- C4: activating the same id twice in succession leaves the document state
(active flags, aria-hidden, visibility flags, stagger delays, aria-current)
identical to the state after the first activation; in particular activating
an already-active id is a state-level no-op. -/
theorem C4_activate_idempotent (d : Doc) (id : String)
    (hmem : ∃ s ∈ d.sections, s.id = id) :
    setActiveSection (setActiveSection d id) id = setActiveSection d id := by
  clear hmem
  have happ : applySection id ∘ applySection id = applySection id :=
    funext (applySection_idem id)
  have hass : ∀ a : Option Section,
      assignCurrent a ∘ assignCurrent a = assignCurrent a :=
    fun a => funext (assignCurrent_idem a)
  rw [setActiveSection_eq d id, setActiveSection_eq]
  simp only [List.map_map, happ, hass]

/-- Witness for C4 on the sample document. -/
theorem C4_activate_idempotent_witness :
    (∃ s ∈ sampleDoc.sections, s.id = "about")
    ∧ setActiveSection (setActiveSection sampleDoc "about") "about"
        = setActiveSection sampleDoc "about" :=
  ⟨by decide, C4_activate_idempotent sampleDoc "about" (by decide)⟩

/-! ## Claim C7 -/

theorem findIndex_some_spec {α : Type} (p : α → Bool) :
    ∀ (l : List α) (i : Nat), findIndex p l = some i →
      ∃ x, l.get? i = some x ∧ p x = true := by
  intro l
  induction l with
  | nil =>
    intro i h
    simp [findIndex] at h
  | cons x xs ih =>
    intro i h
    by_cases hp : p x = true
    · rw [findIndex, if_pos hp] at h
      injection h with h2
      subst h2
      exact ⟨x, rfl, hp⟩
    · rw [findIndex, if_neg hp] at h
      cases hfi : findIndex p xs with
      | none =>
        rw [hfi] at h
        cases h
      | some j =>
        rw [hfi] at h
        simp only [Option.map_some', Option.some.injEq] at h
        subst h
        rcases ih j hfi with ⟨y, hy, hpy⟩
        exact ⟨y, by simpa using hy, hpy⟩

/-- With pairwise distinct section ids, after `setActiveSection` with the id
of the section at position `m`, a section is active exactly when it sits at
position `m`. -/
theorem setActiveSection_active_iff (d : Doc) (m : Nat) (t : Section)
    (hnodup : (d.sections.map Section.id).Nodup)
    (hm : d.sections.get? m = some t) :
    ∀ k u, (setActiveSection d t.id).sections.get? k = some u →
      (u.active = true ↔ k = m) := by
  intro k u hk
  rw [setActiveSection_sections, List.get?_map] at hk
  cases hsk : d.sections.get? k with
  | none =>
    rw [hsk] at hk
    cases hk
  | some sk =>
    rw [hsk] at hk
    simp only [Option.map_some', Option.some.injEq] at hk
    subst hk
    rw [applySection_active]
    constructor
    · intro hb
      have hskid : sk.id = t.id := by simpa using hb
      have h1 : (d.sections.map Section.id).get? k = some t.id := by
        rw [List.get?_map, hsk, Option.map_some', hskid]
      have h2 : (d.sections.map Section.id).get? m = some t.id := by
        rw [List.get?_map, hm, Option.map_some']
      have hklen : k < (d.sections.map Section.id).length := by
        rcases List.get?_eq_some.mp h1 with ⟨hlt, _⟩
        exact hlt
      exact List.get?_inj hklen hnodup (h1.trans h2.symm)
    · intro hkm
      subst hkm
      rw [hm] at hsk
      injection hsk with hsk2
      subst hsk2
      simp

/-- C7: ArrowDown/PageDown activates the section after the current active
one, clamped at the last section; ArrowUp/PageUp activates the one before,
clamped at the first; boundary requests (already at first/last) are no-ops,
not errors. -/
theorem C7_keyboard_navigation_clamped (d : Doc) (i : Nat)
    (hfind : findIndex (fun s => s.active) d.sections = some i)
    (hids : ∀ s ∈ d.sections, s.id ≠ "")
    (hnodup : (d.sections.map Section.id).Nodup) :
    (i + 1 = d.sections.length → goToNextSection d = d)
    ∧ (i = 0 → goToPrevSection d = d)
    ∧ (∀ t, d.sections.get? (i + 1) = some t →
        goToNextSection d = setActiveSection d t.id ∧
        ∀ k u, (setActiveSection d t.id).sections.get? k = some u →
          (u.active = true ↔ k = i + 1))
    ∧ (∀ j t, i = j + 1 → d.sections.get? j = some t →
        goToPrevSection d = setActiveSection d t.id ∧
        ∀ k u, (setActiveSection d t.id).sections.get? k = some u →
          (u.active = true ↔ k = j)) := by
  have hidx : getActiveIndex d = (i : Int) := by
    rw [getActiveIndex, hfind]
  have hnav : ∀ t ∈ d.sections, navigateToSection d t.id = setActiveSection d t.id := by
    intro t htmem
    have htid : t.id ≠ "" := hids t htmem
    have helem : getElementById d t.id = true := by
      rw [getElementById, if_neg (by simpa using htid)]
      have hany : d.sections.any (fun s => s.id == t.id) = true := by
        rw [List.any_eq_true]
        exact ⟨t, htmem, by simp⟩
      rw [hany, Bool.true_or]
    simp only [navigateToSection, helem, if_true]
  refine ⟨?_, ?_, ?_, ?_⟩
  · intro hlen
    simp only [goToNextSection, hidx]
    rw [if_neg (by omega)]
  · intro h0
    simp only [goToPrevSection, hidx]
    rw [if_neg (by omega)]
  · intro t ht
    have htlen : i + 1 < d.sections.length := by
      rcases List.get?_eq_some.mp ht with ⟨hlt, _⟩
      exact hlt
    have htmem : t ∈ d.sections := List.get?_mem ht
    constructor
    · simp only [goToNextSection, hidx]
      rw [if_pos (by omega)]
      have htoNat : ((i : Int) + 1).toNat = i + 1 := by omega
      rw [htoNat, ht]
      exact hnav t htmem
    · exact setActiveSection_active_iff d (i + 1) t hnodup ht
  · intro j t hij ht
    have htmem : t ∈ d.sections := List.get?_mem ht
    constructor
    · simp only [goToPrevSection, hidx]
      rw [if_pos (by omega)]
      have htoNat : ((i : Int) - 1).toNat = j := by omega
      rw [htoNat, ht]
      exact hnav t htmem
    · exact setActiveSection_active_iff d j t hnodup ht

/-- Witness for C7 on the sample document after the bootstrap activation of
its first section. -/
theorem C7_keyboard_navigation_clamped_witness :
    (findIndex (fun s => s.active) (setActiveSection sampleDoc "home").sections = some 0)
    ∧ (∀ s ∈ (setActiveSection sampleDoc "home").sections, s.id ≠ "")
    ∧ ((setActiveSection sampleDoc "home").sections.map Section.id).Nodup
    ∧ ((0 + 1 = (setActiveSection sampleDoc "home").sections.length →
        goToNextSection (setActiveSection sampleDoc "home") = setActiveSection sampleDoc "home")
      ∧ (0 = 0 → goToPrevSection (setActiveSection sampleDoc "home")
          = setActiveSection sampleDoc "home")
      ∧ (∀ t, (setActiveSection sampleDoc "home").sections.get? (0 + 1) = some t →
          goToNextSection (setActiveSection sampleDoc "home")
            = setActiveSection (setActiveSection sampleDoc "home") t.id ∧
          ∀ k u, (setActiveSection (setActiveSection sampleDoc "home") t.id).sections.get? k
              = some u → (u.active = true ↔ k = 0 + 1))
      ∧ (∀ j t, 0 = j + 1 → (setActiveSection sampleDoc "home").sections.get? j = some t →
          goToPrevSection (setActiveSection sampleDoc "home")
            = setActiveSection (setActiveSection sampleDoc "home") t.id ∧
          ∀ k u, (setActiveSection (setActiveSection sampleDoc "home") t.id).sections.get? k
              = some u → (u.active = true ↔ k = j))) :=
  ⟨by decide, by decide, by decide,
    C7_keyboard_navigation_clamped (setActiveSection sampleDoc "home") 0
      (by decide) (by decide) (by decide)⟩

/-! ## Claims C8 and C9: theme -/

theorem updateThemeButton_dataTheme (th : Option String) (d : ThemeDoc) :
    (updateThemeButton th d).dataTheme = d.dataTheme := by
  cases hb : d.themeButton <;> simp [updateThemeButton, hb]

theorem updateThemeButton_storedTheme (th : Option String) (d : ThemeDoc) :
    (updateThemeButton th d).storedTheme = d.storedTheme := by
  cases hb : d.themeButton <;> simp [updateThemeButton, hb]

theorem updateThemeButton_storageFails (th : Option String) (d : ThemeDoc) :
    (updateThemeButton th d).storageFails = d.storageFails := by
  cases hb : d.themeButton <;> simp [updateThemeButton, hb]

/-- Field-level description of `Theme.toggle`: the `data-theme` attribute is
set to the flipped theme; the stored preference follows unless storage
throws (then the `catch` leaves it unchanged); the storage failure mode is
untouched. -/
theorem toggle_fields (d : ThemeDoc) :
    (Theme.toggle d).dataTheme = some (if d.dataTheme = some "light" then "dark" else "light")
    ∧ (Theme.toggle d).storedTheme
        = (if d.storageFails then d.storedTheme
           else some (if d.dataTheme = some "light" then "dark" else "light"))
    ∧ (Theme.toggle d).storageFails = d.storageFails := by
  by_cases hf : d.storageFails = true <;> by_cases hl : d.dataTheme = some "light" <;>
    simp [Theme.toggle, setItemResult, hf, hl, updateThemeButton_dataTheme,
      updateThemeButton_storedTheme, updateThemeButton_storageFails]

theorem displayedTheme_toggle (d : ThemeDoc) :
    displayedTheme (Theme.toggle d)
      = (if d.dataTheme = some "light" then "dark" else "light") := by
  rw [displayedTheme, (toggle_fields d).1]
  by_cases hl : d.dataTheme = some "light" <;> simp [hl]

/-- C8: the theme toggle is an involution on the displayed theme, and (with
storage operational) after every toggle the persisted preference equals the
displayed theme. -/
theorem C8_theme_toggle_involution (d : ThemeDoc) (h : d.storageFails = false) :
    displayedTheme (Theme.toggle (Theme.toggle d)) = displayedTheme d
    ∧ (Theme.toggle d).storedTheme = some (displayedTheme (Theme.toggle d))
    ∧ (Theme.toggle (Theme.toggle d)).storedTheme
        = some (displayedTheme (Theme.toggle (Theme.toggle d))) := by
  have hf2 : (Theme.toggle d).storageFails = false := by
    rw [(toggle_fields d).2.2, h]
  refine ⟨?_, ?_, ?_⟩
  · rw [displayedTheme_toggle (Theme.toggle d), (toggle_fields d).1, displayedTheme]
    by_cases hl : d.dataTheme = some "light" <;> simp [hl]
  · rw [(toggle_fields d).2.1, h, displayedTheme_toggle]
    simp
  · rw [(toggle_fields (Theme.toggle d)).2.1, hf2, displayedTheme_toggle (Theme.toggle d)]
    simp

/-- Witness for C8 at a concrete operational-storage state. -/
theorem C8_theme_toggle_involution_witness :
    (ThemeDoc.storageFails ⟨some "light", some "light", false, none⟩ = false)
    ∧ (displayedTheme (Theme.toggle (Theme.toggle ⟨some "light", some "light", false, none⟩))
        = displayedTheme ⟨some "light", some "light", false, none⟩
      ∧ (Theme.toggle ⟨some "light", some "light", false, none⟩).storedTheme
        = some (displayedTheme (Theme.toggle ⟨some "light", some "light", false, none⟩))
      ∧ (Theme.toggle (Theme.toggle ⟨some "light", some "light", false, none⟩)).storedTheme
        = some (displayedTheme
            (Theme.toggle (Theme.toggle ⟨some "light", some "light", false, none⟩)))) :=
  ⟨rfl, C8_theme_toggle_involution ⟨some "light", some "light", false, none⟩ rfl⟩

/-- C9 (counterexample): the claim says every persistent-storage access,
including the startup read in `Theme.init`, silently ignores storage
failures; but the `localStorage.getItem` call in `Theme.init` is not
wrapped in try/catch, so with throwing storage the exception propagates out
of `init`. -/
theorem C9_storage_read_counterexample :
    Theme.init ⟨none, none, true, none⟩ = Except.error "storage access throws" := rfl

/-- C9 (amended): the write on every toggle silently ignores storage
failures — `Theme.toggle` completes its document update and leaves the
persisted value unchanged when storage throws — but the single startup read
in `Theme.init` is unguarded, so a throwing read propagates out of it. -/
theorem C9_storage_policy_amended (d : ThemeDoc) (h : d.storageFails = true) :
    (Theme.toggle d).storedTheme = d.storedTheme
    ∧ (Theme.toggle d).dataTheme
        = some (if d.dataTheme = some "light" then "dark" else "light")
    ∧ ∃ e, Theme.init d = Except.error e := by
  refine ⟨?_, (toggle_fields d).1, ?_⟩
  · rw [(toggle_fields d).2.1, h]
    simp
  · refine ⟨"storage access throws", ?_⟩
    simp [Theme.init, getItemResult, h]

/-- Witness for the amended C9 at a concrete failing-storage state. -/
theorem C9_storage_policy_amended_witness :
    (ThemeDoc.storageFails ⟨some "dark", some "dark", true, none⟩ = true)
    ∧ ((Theme.toggle ⟨some "dark", some "dark", true, none⟩).storedTheme = some "dark"
      ∧ (Theme.toggle ⟨some "dark", some "dark", true, none⟩).dataTheme
        = some (if (⟨some "dark", some "dark", true, none⟩ : ThemeDoc).dataTheme = some "light"
            then "dark" else "light")
      ∧ ∃ e, Theme.init ⟨some "dark", some "dark", true, none⟩ = Except.error e) :=
  ⟨rfl, C9_storage_policy_amended ⟨some "dark", some "dark", true, none⟩ rfl⟩

end Portfolio
